import Mathlib

/-!
# Verification of the `2023-hello-llm` pipelines

Shallow embedding of `src/lab_7_llm/main.py` (neural machine translation)
and `src/lab_8_llm/main.py` (toxicity classification): the pandas tables
they manipulate, the preprocessing steps, the task-dataset adapter and the
batched inference pipeline.  Machine-level concerns (actual model weights,
tokenizers) are abstracted as pointwise string functions, exactly as the
observable contract of `_infer_batch` demands; everything else follows the
Python source line by line.
-/

namespace HelloLLM

/-- Python exception kinds that the embedded code can raise. -/
inductive PyErr
  | typeError
  | attributeError
  | valueError
  | indexError
  deriving DecidableEq, Repr

/-- A pandas `Series` of values of type `α`: an ordered list of
(index label, value) pairs.  Labels in this development are the `Nat`
row labels pandas uses (`RangeIndex` or remnants of one). -/
abbrev Series (α : Type) : Type := List (Nat × α)

/-- Labels of a series, in order. -/
def Series.labels {α : Type} (s : Series α) : List Nat := s.map Prod.fst

/-- Values of a series, in order. -/
def Series.values {α : Type} (s : Series α) : List α := s.map Prod.snd

/-- Lookup by index label: the value at label `l` (first occurrence), as
pandas label-based lookup does. -/
def Series.get {α : Type} (s : Series α) (l : Nat) : Option α :=
  (s.find? (fun p => p.fst == l)).map Prod.snd

/-- Number of rows. -/
def Series.size {α : Type} (s : Series α) : Nat := s.length

/-- A clean two-column table of lab_7/lab_8 (`source`, `target`), each row
carrying its pandas index label: the shape produced by `transform()` and
wrapped by `TaskDataset`. -/
structure CleanRow where
  label : Nat
  source : String
  target : String
  deriving DecidableEq, Repr

/-- The clean table: rows in order, each with its index label. -/
abbrev CleanTable : Type := List CleanRow

/-- The `target` column of a clean table as a pandas series
(`self._data[ColumnNames.TARGET.value]`): it keeps the table's own index. -/
def CleanTable.targetSeries (t : CleanTable) : Series String :=
  t.map (fun r => (r.label, r.target))

/-- The `source` column values in row order (what positional iteration
over the table yields). -/
def CleanTable.sources (t : CleanTable) : List String :=
  t.map (fun r => r.source)

/-- The `target` column values in row order. -/
def CleanTable.targets (t : CleanTable) : List String :=
  t.map (fun r => r.target)

/-- The index of a clean table, in order. -/
def CleanTable.labels (t : CleanTable) : List Nat :=
  t.map (fun r => r.label)

/-- A clean table has the default contiguous `RangeIndex` `0..N-1`. -/
def CleanTable.defaultIndex (t : CleanTable) : Prop :=
  t.labels = List.range t.length

instance (t : CleanTable) : Decidable t.defaultIndex := by
  unfold CleanTable.defaultIndex; infer_instance

/-! ## lab_8 `RawDataPreprocessor.transform`

```python
self._data = (
    self._raw_data.drop_duplicates()
    .rename(columns={'toxic_comment': ColumnNames.SOURCE.value,
                     'reasons': ColumnNames.TARGET.value})
)
self._data[ColumnNames.TARGET.value] = (
    self._data[ColumnNames.TARGET.value]
    .replace({'{"not_toxic":true}': '0', '{"toxic_content":true}': '1'})
)
self._data = (
    self._data[self._data[ColumnNames.TARGET.value].isin(['0', '1'])]
    .reset_index(drop=True)
)
```

The raw table has columns `toxic_comment`, `reasons`; a raw row is a
labelled pair of those two strings.  `drop_duplicates` compares column
values only (not the index) and keeps the first occurrence with its label.
-/

/-- A row of the lab_8 raw classification table, with its index label. -/
structure Lab8RawRow where
  label : Nat
  toxic_comment : String
  reasons : String
  deriving DecidableEq, Repr

/-- The lab_8 raw table. -/
abbrev Lab8RawTable : Type := List Lab8RawRow

/-- Embedding of `DataFrame.drop_duplicates()`: keep each row whose column
values did not already occur in an earlier row; index labels are kept, not
compared. -/
def dropDuplicates (rows : List Lab8RawRow) : List Lab8RawRow :=
  rows.foldl
    (fun acc r =>
      if acc.any (fun r0 => r0.toxic_comment == r.toxic_comment && r0.reasons == r.reasons)
      then acc else acc ++ [r])
    []

/-- The raw payload string marking a non-toxic comment. -/
def notToxicPayload : String := "\x7b\"not_toxic\":true\x7d"

/-- The raw payload string marking a toxic comment. -/
def toxicPayload : String := "\x7b\"toxic_content\":true\x7d"

/-- The label-payload map applied by the `replace` call on the target
column: the two JSON payloads are mapped to the strings `0` and `1`;
every other value is left unchanged. -/
def replaceLabel (s : String) : String :=
  if s = notToxicPayload then "0"
  else if s = toxicPayload then "1"
  else s

/-- Embedding of `reset_index(drop=True)`: discard the old index and
relabel the rows `k, k+1, ...` (used with `k = 0`). -/
def resetIndex (k : Nat) : CleanTable → CleanTable
  | [] => []
  | r :: rs => ⟨k, r.source, r.target⟩ :: resetIndex (k + 1) rs

/-- Apply the label-payload replacement to the target column of a table
(the elementwise `replace` call on `self._data[target]`). -/
def replaceTargets (t : CleanTable) : CleanTable :=
  t.map (fun r => ⟨r.label, r.source, replaceLabel r.target⟩)

/-- Keep the rows whose target is in the label vocabulary: the
`isin(['0', '1'])` boolean-mask filter. -/
def filterTargets (t : CleanTable) : CleanTable :=
  t.filter (fun r => r.target == "0" || r.target == "1")

/-- Embedding of lab_8 `RawDataPreprocessor.transform`: drop duplicate
rows, rename the columns to `source`/`target`, map the label payloads,
keep only rows whose mapped target is `0` or `1`, and reset the index to
`0..N-1`. -/
def lab8_transform (raw : Lab8RawTable) : CleanTable :=
  let renamed : CleanTable :=
    (dropDuplicates raw).map (fun r => ⟨r.label, r.toxic_comment, r.reasons⟩)
  resetIndex 0 (filterTargets (replaceTargets renamed))

/-- Worker for value-based duplicate dropping on an already-clean table:
keeps each row whose `(source, target)` pair has not been seen before. -/
def dedupCleanGo (seen : CleanTable) : CleanTable → CleanTable
  | [] => []
  | r :: rs =>
    if seen.any (fun r0 => r0.source == r.source && r0.target == r.target)
    then dedupCleanGo seen rs
    else r :: dedupCleanGo (seen ++ [r]) rs

/-- Value-based `drop_duplicates()` on a clean `{source, target}` table
(index labels are kept, not compared). -/
def dropDuplicatesClean (t : CleanTable) : CleanTable := dedupCleanGo [] t

/-- The dedup / label-map / filter / reindex sequence of lab_8
`transform`, applied to a table already in the clean `{source, target}`
schema (on such a table the `rename` step of `transform` is a no-op). -/
def lab8_cleanStep (t : CleanTable) : CleanTable :=
  resetIndex 0 (filterTargets (replaceTargets (dropDuplicatesClean t)))

/-! ## `RawDataPreprocessor.analyze` (labs 7 and 8)

```python
rows, cols = self._raw_data.shape
data_droped_empty = self._raw_data.dropna()
return {'dataset_number_of_samples': rows,
        'dataset_columns': cols,
        'dataset_duplicates': len(self._raw_data[self._raw_data.duplicated()]),
        'dataset_empty_rows': rows - len(data_droped_empty),
        'dataset_sample_min_len': min(data_droped_empty[PRIMARY].str.len()),
        'dataset_sample_max_len': max(data_droped_empty[PRIMARY].str.len())}
```

The two labs differ only in the primary text column (`ru` vs
`toxic_comment`), so the raw table is modelled generically: a row is a
list of nullable string cells and the primary column is a position `p`.
The Python built-ins `min`/`max` raise `ValueError` on an empty sequence.
-/

/-- A raw-table row: one nullable string cell per column. -/
abbrev RawRow : Type := List (Option String)

/-- Embedding of `DataFrame.dropna()`: keep the rows with no null cell. -/
def dropna (raw : List RawRow) : List RawRow :=
  raw.filter (fun r => r.all Option.isSome)

/-- Worker counting rows marked by `DataFrame.duplicated()`: a row counts
when its cell values already occurred in an earlier row. -/
def duplicatedGo (seen : List RawRow) : List RawRow → Nat
  | [] => 0
  | r :: rs => (if r ∈ seen then 1 else 0) + duplicatedGo (r :: seen) rs

/-- Number of rows `DataFrame.duplicated()` marks as duplicates. -/
def duplicatedCount (raw : List RawRow) : Nat := duplicatedGo [] raw

/-- Python built-in `min` over a sequence of naturals: `ValueError` on an
empty sequence. -/
def pyMin : List Nat → Except PyErr Nat
  | [] => .error .valueError
  | x :: xs => .ok (xs.foldl Nat.min x)

/-- Python built-in `max` over a sequence of naturals: `ValueError` on an
empty sequence. -/
def pyMax : List Nat → Except PyErr Nat
  | [] => .error .valueError
  | x :: xs => .ok (xs.foldl Nat.max x)

/-- Character length of the primary text cell of a (non-null) row; rows
surviving `dropna` always have a string there. -/
def primaryLen (p : Nat) (r : RawRow) : Nat :=
  match r.get? p with
  | some (some s) => s.length
  | _ => 0

/-- The dict `analyze()` builds. -/
structure Analysis where
  dataset_number_of_samples : Nat
  dataset_columns : Nat
  dataset_duplicates : Nat
  dataset_empty_rows : Nat
  dataset_sample_min_len : Nat
  dataset_sample_max_len : Nat
  deriving DecidableEq, Repr

/-- Embedding of `RawDataPreprocessor.analyze` (identical logic in labs 7
and 8 up to the primary column `p`); the `min`/`max` calls are unguarded,
so they raise on a table whose `dropna` result is empty. -/
def RawDataPreprocessor_analyze (p : Nat) (raw : List RawRow) (cols : Nat) :
    Except PyErr Analysis := do
  let rows := raw.length
  let dropped := dropna raw
  let lens := dropped.map (primaryLen p)
  let mn ← pyMin lens
  let mx ← pyMax lens
  return ⟨rows, cols, duplicatedCount raw, rows - dropped.length, mn, mx⟩

/-! ## `TaskDataset` (identical in labs 7 and 8)

`__len__` is the row count; `__getitem__` is
`(self._data.iloc[index][ColumnNames.SOURCE.value],)`: positional access
with Python semantics — a negative index counts from the end, and an
index outside `[-N, N)` raises `IndexError`.  A sample (a Python 1-tuple
of the source text) is modelled as a one-element list. -/

/-- Embedding of `TaskDataset.__len__`. -/
def TaskDataset_len (t : CleanTable) : Nat := t.length

/-- Embedding of `TaskDataset.__getitem__`: `iloc` positional lookup of
the row, then projection to the `source` field, packed in a 1-tuple. -/
def TaskDataset_getitem (t : CleanTable) (index : Int) : Except PyErr (List String) :=
  let j : Int := if index < 0 then index + t.length else index
  if 0 ≤ j then
    match t.get? j.toNat with
    | some r => .ok [r.source]
    | none => .error .indexError
  else .error .indexError

/-! ## `RawDataImporter.obtain` (labs 7 and 8)

```python
self._raw_data = load_dataset(self._hf_name, split=...).to_pandas()
```

The docstring promises `TypeError: In case of downloaded dataset is not
pd.DataFrame`, but the body performs no type check at all: it just calls
`.to_pandas()` on whatever the hub returned.  A non-tabular result (for
example a `DatasetDict`, returned when no split is selected) has no
`to_pandas` attribute, so the attribute access raises `AttributeError`,
not `TypeError`. -/

/-- The object the dataset hub returns for a fetch: either a tabular
dataset convertible to a DataFrame, or some other object without a
`to_pandas` attribute. -/
inductive Fetched (α : Type)
  | tabular (df : α)
  | nonTabular

/-- Attribute access `fetched.to_pandas()`: converts a tabular dataset,
raises `AttributeError` on anything else. -/
def to_pandas {α : Type} : Fetched α → Except PyErr α
  | .tabular df => .ok df
  | .nonTabular => .error .attributeError

/-- Embedding of `RawDataImporter.obtain`: stores the `to_pandas`
conversion of the fetched split as the raw table, with no type check of
its own. -/
def RawDataImporter_obtain {α : Type} (fetched : Fetched α) : Except PyErr α :=
  to_pandas fetched

/-! ## `LLMPipeline` (lab_7: translation; lab_8: classification)

The tokenizer–model–decoder composite of `_infer_batch` is abstracted as
a per-sample function `f : String → String` (`generate` emits one output
row per input row and `batch_decode` decodes them in order), which is the
observable contract all the dataset-level claims are about.  A pipeline
with no model loaded is modelled by `Option`-valued model state. -/

/-- The model configuration read by `analyze_model`. -/
structure ModelConfig where
  max_position_embeddings : Nat
  max_length : Nat
  vocab_size : Nat
  deriving DecidableEq, Repr

/-- The statistics `torchinfo.summary` reports for a loaded model. -/
structure SummaryStats where
  output_shape : List Nat
  trainable_params : Nat
  total_param_bytes : Nat
  input_size_input_ids : List Nat
  input_size_attention_mask : List Nat
  deriving DecidableEq, Repr

/-- A loaded model, as far as `analyze_model` observes it. -/
structure TorchModel where
  config : ModelConfig
  stats : SummaryStats
  deriving DecidableEq, Repr

/-- The dict lab_7 `analyze_model` builds. -/
structure Lab7ModelAnalysis where
  input_shape : List Nat
  embedding_size : Nat
  output_shape : List Nat
  num_trainable_params : Nat
  vocab_size : Nat
  size : Nat
  max_context_length : Nat
  deriving DecidableEq, Repr

/-- The dict lab_8 `analyze_model` builds (its `input_shape` is a dict of
the two tokenizer input shapes). -/
structure Lab8ModelAnalysis where
  input_shape_attention_mask : List Nat
  input_shape_input_ids : List Nat
  embedding_size : Nat
  output_shape : List Nat
  num_trainable_params : Nat
  vocab_size : Nat
  size : Nat
  max_context_length : Nat
  deriving DecidableEq, Repr

/-- Embedding of lab_7 `LLMPipeline.analyze_model`.  The very first line
`config = self._model.config` dereferences the model, so with no model
loaded the call raises `AttributeError`; the absent-model guard
`if not self._model: return ` (empty dict) sits after that dereference and
is therefore unreachable in the absent-model state. -/
def lab7_analyze_model (model : Option TorchModel) :
    Except PyErr (Option Lab7ModelAnalysis) :=
  match model with
  | none => .error .attributeError
  | some m =>
    if (Option.some m).isNone then .ok none
    else .ok (some ⟨[1, m.config.max_length], m.config.max_position_embeddings,
                    m.stats.output_shape, m.stats.trainable_params,
                    m.config.vocab_size, m.stats.total_param_bytes,
                    m.config.max_length⟩)

/-- Embedding of lab_8 `LLMPipeline.analyze_model`: same control flow as
lab_7 (model dereference before the absent-model guard), different dict. -/
def lab8_analyze_model (model : Option TorchModel) :
    Except PyErr (Option Lab8ModelAnalysis) :=
  match model with
  | none => .error .attributeError
  | some m =>
    if (Option.some m).isNone then .ok none
    else .ok (some ⟨m.stats.input_size_attention_mask, m.stats.input_size_input_ids,
                    m.config.max_position_embeddings, m.stats.output_shape,
                    m.stats.trainable_params, m.config.vocab_size,
                    m.stats.total_param_bytes, m.config.max_length⟩)

/-- Embedding of lab_7 `LLMPipeline._infer_batch`: flatten the batch of
tuples into the flat list of source texts, then run the
tokenize–generate–decode composite (one decoded string per input). -/
def lab7_infer_batch (f : String → String) (sample_batch : List (List String)) :
    List String :=
  (sample_batch.flatten).map f

/-- Embedding of lab_7 `LLMPipeline.infer_sample`: `None` when no model
is loaded, otherwise element `[0]` of the singleton-batch result (Python
list indexing raises `IndexError` on an empty list). -/
def lab7_infer_sample (model : Option (String → String)) (sample : List String) :
    Except PyErr (Option String) :=
  match model with
  | none => .ok none
  | some f =>
    match lab7_infer_batch f [sample] with
    | [] => .error .indexError
    | p :: _ => .ok (some p)

/-- Embedding of lab_8 `LLMPipeline.infer_sample`: tokenizes the sample
and calls `self._model(**tokens)` with no absent-model guard, so with no
model loaded the call of `None` raises `TypeError`.  The classifier is
abstracted as the arg-max of the output logits, stringified. -/
def lab8_infer_sample (model : Option (List String → Nat)) (sample : List String) :
    Except PyErr (Option String) :=
  match model with
  | none => .error .typeError
  | some classify => .ok (some (toString (classify sample)))

/-- The items of the wrapped dataset in index order `0..N-1`: what
iterating `TaskDataset.__getitem__` positionally yields (each a 1-tuple
of the row's source text). -/
def TaskDataset_items (t : CleanTable) : List (List String) :=
  t.map (fun r => [r.source])

/-- Worker for `chunkList`, structurally recursive on a fuel bound (any
fuel at least the list length gives the same result when `b ≥ 1`): peel
off `take b` and recurse on `drop b`. -/
def chunkFuel {α : Type} (b : Nat) : List α → Nat → List (List α)
  | [], _ => []
  | _ :: _, 0 => []
  | x :: xs, fuel + 1 => ((x :: xs).take b) :: chunkFuel b ((x :: xs).drop b) fuel

/-- Fixed-size order-preserving chunking with truncated last chunk: how
`DataLoader(dataset, batch_size)` segments the index sequence.  A
`DataLoader` needs `batch_size ≥ 1`; `b = 0` is mapped to no batches. -/
def chunkList {α : Type} (b : Nat) (l : List α) : List (List α) :=
  if b = 0 then [] else chunkFuel b l l.length

/-- Default collation of a chunk of 1-tuple samples: the single field is
batched into the list of its values across the chunk
(`[(s1,), ..., (sk,)] ↦ ([s1, ..., sk],)`). -/
def collate1 (chunk : List (List String)) : List (List String) :=
  [chunk.flatten]

/-- The collated batches `DataLoader(self._dataset, self._batch_size)`
yields, in iteration order. -/
def DataLoader_batches (t : CleanTable) (b : Nat) : List (List (List String)) :=
  (chunkList b (TaskDataset_items t)).map collate1

/-- A pandas series with the default `RangeIndex` over the given values:
`pd.Series(predictions)`. -/
def defaultSeries {α : Type} (vals : List α) : Series α :=
  (List.range vals.length).zip vals

/-- A row of the prediction table `infer_dataset` returns; `none` cells
are the NaN holes pandas fills in when the two column series disagree on
index labels. -/
structure PredRow where
  label : Nat
  target : Option String
  prediction : Option String
  deriving DecidableEq, Repr

/-- Insertion of a label into a sorted label list. -/
def sortedInsert (x : Nat) : List Nat → List Nat
  | [] => [x]
  | y :: ys => if x ≤ y then x :: y :: ys else y :: sortedInsert x ys

/-- Sort a label list ascending. -/
def sortNat (l : List Nat) : List Nat := l.foldr sortedInsert []

/-- Union of two pandas index label lists: kept as-is when the indexes
coincide, otherwise the sorted set union (pandas sorts the union of
differing monotonic indexes). -/
def indexUnion (la lb : List Nat) : List Nat :=
  if la = lb then la else (sortNat (la ++ lb)).dedup

/-- Embedding of the two-column DataFrame construction
`pd.DataFrame({target: ..., prediction: ...})`: the columns are aligned
by index label, with a null cell wherever a label is missing from one of
the two series. -/
def mkPredTable (tgt pred : Series String) : List PredRow :=
  (indexUnion (Series.labels tgt) (Series.labels pred)).map
    (fun l => ⟨l, tgt.get l, pred.get l⟩)

/-- The prediction list lab_7 `infer_dataset` accumulates: per-batch
outputs of `_infer_batch`, concatenated in batch order by
`predictions.extend(...)`. -/
def lab7_infer_dataset_predictions (f : String → String) (b : Nat) (t : CleanTable) :
    List String :=
  ((DataLoader_batches t b).map (lab7_infer_batch f)).flatten

/-- Embedding of lab_7 `LLMPipeline.infer_dataset`: iterate the wrapped
dataset in `DataLoader` batches, accumulate the decoded predictions, and
build the `{target, prediction}` table from the dataset's own target
series (keeping its index) and a fresh default-indexed prediction series. -/
def lab7_infer_dataset (f : String → String) (b : Nat) (t : CleanTable) :
    List PredRow :=
  mkPredTable t.targetSeries (defaultSeries (lab7_infer_dataset_predictions f b t))

/-- Embedding of lab_8 `LLMPipeline.infer_dataset`: the function body is
empty (only a docstring), so the call returns `None` instead of a table. -/
def lab8_infer_dataset : Option (List PredRow) := none


theorem chunkFuel_nil {α : Type} (b : Nat) (fuel : Nat) :
    chunkFuel b ([] : List α) fuel = [] := by
  cases fuel <;> rfl

theorem chunkFuel_congr {α : Type} (b : Nat) (hb : b ≠ 0) :
    ∀ (fuel1 fuel2 : Nat) (l : List α), l.length ≤ fuel1 → l.length ≤ fuel2 →
      chunkFuel b l fuel1 = chunkFuel b l fuel2 := by
  intro fuel1
  induction fuel1 with
  | zero =>
    intro fuel2 l hl1 hl2
    have : l = [] := List.length_eq_zero.mp (Nat.le_zero.mp hl1)
    subst this
    rw [chunkFuel_nil, chunkFuel_nil]
  | succ f1 ih =>
    intro fuel2 l hl1 hl2
    match l, fuel2 with
    | [], _ => rw [chunkFuel_nil, chunkFuel_nil]
    | x :: xs, 0 => simp at hl2
    | x :: xs, f2 + 1 =>
      show ((x :: xs).take b) :: chunkFuel b ((x :: xs).drop b) f1
          = ((x :: xs).take b) :: chunkFuel b ((x :: xs).drop b) f2
      congr 1
      apply ih
      · simp only [List.length_drop, List.length_cons] at hl1 ⊢
        omega
      · simp only [List.length_drop, List.length_cons] at hl2 ⊢
        omega

theorem chunkList_nil {α : Type} (b : Nat) : chunkList b ([] : List α) = [] := by
  by_cases hb : b = 0 <;> simp [chunkList, chunkFuel, hb]

theorem chunkList_cons {α : Type} (b : Nat) (x : α) (xs : List α) (hb : b ≠ 0) :
    chunkList b (x :: xs) = (x :: xs).take b :: chunkList b ((x :: xs).drop b) := by
  unfold chunkList
  rw [if_neg hb, if_neg hb]
  show ((x :: xs).take b) :: chunkFuel b ((x :: xs).drop b) xs.length
      = ((x :: xs).take b) :: chunkFuel b ((x :: xs).drop b) ((x :: xs).drop b).length
  congr 1
  apply chunkFuel_congr b hb
  · simp only [List.length_drop, List.length_cons]
    omega
  · exact Nat.le_refl _

theorem chunkList_flatten {α : Type} (b : Nat) (hb : 1 ≤ b) (l : List α) :
    (chunkList b l).flatten = l := by
  have H : ∀ (n : Nat) (l : List α), l.length ≤ n → (chunkList b l).flatten = l := by
    intro n
    induction n with
    | zero =>
      intro l hl
      have : l = [] := List.length_eq_zero.mp (Nat.le_zero.mp hl)
      subst this
      simp [chunkList_nil]
    | succ n ih =>
      intro l hl
      match l with
      | [] => simp [chunkList_nil]
      | x :: xs =>
        rw [chunkList_cons b x xs (by omega)]
        rw [List.flatten_cons]
        rw [ih ((x :: xs).drop b) (by simp only [List.length_drop, List.length_cons] at hl ⊢; omega)]
        exact List.take_append_drop b (x :: xs)
  exact H l.length l (Nat.le_refl _)

theorem chunkList_map {α β : Type} (b : Nat) (g : α → β) (l : List α) :
    chunkList b (l.map g) = (chunkList b l).map (List.map g) := by
  have H : ∀ (n : Nat) (l : List α), l.length ≤ n →
      chunkList b (l.map g) = (chunkList b l).map (List.map g) := by
    intro n
    induction n with
    | zero =>
      intro l hl
      have : l = [] := List.length_eq_zero.mp (Nat.le_zero.mp hl)
      subst this
      simp [chunkList_nil]
    | succ n ih =>
      intro l hl
      match l with
      | [] => simp [chunkList_nil]
      | x :: xs =>
        by_cases hb : b = 0
        · subst hb
          simp [chunkList]
        · rw [chunkList_cons b x xs hb, List.map_cons, chunkList_cons b (g x) (xs.map g) hb]
          rw [← List.map_cons g x xs, ← List.map_take, ← List.map_drop]
          rw [ih ((x :: xs).drop b) (by simp only [List.length_drop, List.length_cons] at hl ⊢; omega)]
          simp
  exact H l.length l (Nat.le_refl _)

theorem flatten_map_singleton {α : Type} (l : List α) :
    (l.map (fun s => [s])).flatten = l := by
  induction l with
  | nil => rfl
  | cons x xs ih => simp [ih]

theorem chunkList_length_le {α : Type} (b : Nat) (l : List α) (c : List α)
    (hc : c ∈ chunkList b l) : c.length ≤ b := by
  have H : ∀ (n : Nat) (l : List α), l.length ≤ n →
      ∀ c ∈ chunkList b l, c.length ≤ b := by
    intro n
    induction n with
    | zero =>
      intro l hl c hc
      have : l = [] := List.length_eq_zero.mp (Nat.le_zero.mp hl)
      subst this
      simp [chunkList_nil] at hc
    | succ n ih =>
      intro l hl c hc
      match l with
      | [] => simp [chunkList_nil] at hc
      | x :: xs =>
        by_cases hb : b = 0
        · subst hb
          simp [chunkList] at hc
        · rw [chunkList_cons b x xs hb] at hc
          rcases List.mem_cons.mp hc with h | h
          · subst h
            simpa using List.length_take_le b (x :: xs)
          · exact ih ((x :: xs).drop b) (by simp only [List.length_drop, List.length_cons] at hl ⊢; omega) c h
  exact H l.length l (Nat.le_refl _) c hc


theorem chunkList_eq_nil_iff {α : Type} (b : Nat) (hb : 1 ≤ b) (l : List α) :
    chunkList b l = [] ↔ l = [] := by
  constructor
  · intro h
    match l with
    | [] => rfl
    | x :: xs =>
      rw [chunkList_cons b x xs (by omega)] at h
      exact absurd h (List.cons_ne_nil _ _)
  · intro h
    subst h
    exact chunkList_nil b

theorem chunkList_dropLast_length {α : Type} (b : Nat) (hb : 1 ≤ b) (l : List α)
    (c : List α) (hc : c ∈ (chunkList b l).dropLast) : c.length = b := by
  have H : ∀ (n : Nat) (l : List α), l.length ≤ n →
      ∀ c ∈ (chunkList b l).dropLast, c.length = b := by
    intro n
    induction n with
    | zero =>
      intro l hl c hc
      have : l = [] := List.length_eq_zero.mp (Nat.le_zero.mp hl)
      subst this
      simp [chunkList_nil] at hc
    | succ n ih =>
      intro l hl c hc
      match l with
      | [] => simp [chunkList_nil] at hc
      | x :: xs =>
        rw [chunkList_cons b x xs (by omega)] at hc
        by_cases hrest : chunkList b ((x :: xs).drop b) = []
        · rw [hrest] at hc
          simp at hc
        · rw [List.dropLast_cons_of_ne_nil hrest] at hc
          rcases List.mem_cons.mp hc with h | h
          · subst h
            have hdrop : (x :: xs).drop b ≠ [] :=
              fun h0 => hrest (by rw [h0]; exact chunkList_nil b)
            have hlen : b < (x :: xs).length := by
              by_contra hle
              exact hdrop (List.drop_eq_nil_of_le (by omega))
            simp only [List.length_take, List.length_cons] at hlen ⊢
            omega
          · exact ih ((x :: xs).drop b)
              (by simp only [List.length_drop, List.length_cons] at hl ⊢; omega) c h
  exact H l.length l (Nat.le_refl _) c hc

theorem lab7_predictions_eq (f : String → String) (b : Nat) (hb : 1 ≤ b)
    (t : CleanTable) :
    lab7_infer_dataset_predictions f b t = t.sources.map f := by
  unfold lab7_infer_dataset_predictions DataLoader_batches
  rw [List.map_map]
  have hitems : TaskDataset_items t = t.sources.map (fun s => [s]) := by
    unfold TaskDataset_items CleanTable.sources
    rw [List.map_map]
    rfl
  rw [hitems, chunkList_map]
  have hper : ∀ c : List String,
      (lab7_infer_batch f ∘ collate1) (c.map (fun s => [s])) = c.map f := by
    intro c
    simp only [Function.comp, collate1, lab7_infer_batch]
    rw [List.flatten_cons, List.flatten_nil, List.append_nil, flatten_map_singleton]
  rw [List.map_map]
  have : (List.map ((lab7_infer_batch f ∘ collate1) ∘ List.map fun s => [s])
      (chunkList b t.sources)) = (chunkList b t.sources).map (fun c => c.map f) := by
    apply List.map_congr_left
    intro c _
    exact hper c
  rw [this]
  rw [← List.map_flatten]
  rw [chunkList_flatten b hb]

theorem get_zip_range' {α : Type} (vals : List α) (k i : Nat) :
    Series.get ((List.range' k vals.length).zip vals) (k + i) = vals.get? i := by
  induction vals generalizing k i with
  | nil => simp [Series.get]
  | cons v vs ih =>
    simp only [List.length_cons, List.range'_succ, List.zip_cons_cons]
    match i with
    | 0 => simp [Series.get]
    | i' + 1 =>
      have hne : (k == k + (i' + 1)) = false := by simp
      simp only [Series.get, List.find?_cons, hne]
      have : k + (i' + 1) = (k + 1) + i' := by omega
      rw [this]
      exact ih (k + 1) i'

theorem get_zip_range'_none {α : Type} (vals : List α) (k j : Nat)
    (hj : j < k ∨ k + vals.length ≤ j) :
    Series.get ((List.range' k vals.length).zip vals) j = none := by
  induction vals generalizing k with
  | nil => simp [Series.get]
  | cons v vs ih =>
    simp only [List.length_cons, List.range'_succ, List.zip_cons_cons]
    have hne : (k == j) = false := by
      simp only [List.length_cons] at hj
      simp
      omega
    simp only [Series.get, List.find?_cons, hne]
    apply ih
    simp only [List.length_cons] at hj
    omega

theorem series_get_isSome_of_mem {α : Type} (s : Series α) (l : Nat)
    (hl : l ∈ Series.labels s) : (Series.get s l).isSome := by
  induction s with
  | nil => simp [Series.labels] at hl
  | cons p ps ih =>
    by_cases hp : p.fst = l
    · simp [Series.get, List.find?_cons, hp]
    · have : (p.fst == l) = false := by simp [hp]
      simp only [Series.get, List.find?_cons, this]
      apply ih
      simp [Series.labels] at hl ⊢
      rcases hl with h | h
      · exact absurd h.symm hp
      · exact h

theorem map_pair_eq_zip {α β γ : Type} (f : α → β) (g : α → γ) (l : List α) :
    l.map (fun r => (f r, g r)) = (l.map f).zip (l.map g) := by
  induction l with
  | nil => rfl
  | cons x xs ih => simp [ih]

theorem targetSeries_eq_zip (t : CleanTable) :
    t.targetSeries = t.labels.zip t.targets :=
  map_pair_eq_zip _ _ t

theorem targetSeries_labels (t : CleanTable) :
    Series.labels t.targetSeries = t.labels := by
  simp [Series.labels, CleanTable.targetSeries, CleanTable.labels, List.map_map]

theorem targets_length (t : CleanTable) : t.targets.length = t.length :=
  List.length_map t _

theorem sources_length (t : CleanTable) : t.sources.length = t.length :=
  List.length_map t _

theorem labels_length (t : CleanTable) : t.labels.length = t.length :=
  List.length_map t _

theorem defaultSeries_labels {α : Type} (vals : List α) :
    Series.labels (defaultSeries vals) = List.range vals.length := by
  unfold defaultSeries Series.labels
  exact List.map_fst_zip _ _ (by simp)

theorem defaultSeries_get {α : Type} (vals : List α) (i : Nat) :
    Series.get (defaultSeries vals) i = vals.get? i := by
  unfold defaultSeries
  rw [List.range_eq_range']
  simpa using get_zip_range' vals 0 i

theorem defaultSeries_get_none {α : Type} (vals : List α) (j : Nat)
    (hj : vals.length ≤ j) : Series.get (defaultSeries vals) j = none := by
  unfold defaultSeries
  rw [List.range_eq_range']
  exact get_zip_range'_none vals 0 j (by omega)

theorem map_get?_range {α : Type} (l : List α) :
    (List.range l.length).map (fun i => l.get? i) = l.map some := by
  induction l with
  | nil => rfl
  | cons x xs ih =>
    rw [List.length_cons, List.range_succ_eq_map, List.map_cons, List.map_map]
    exact congrArg (fun tail => some x :: tail) ih

theorem sorted_lt_eq_range (l : List Nat) (hs : l.Sorted (· < ·))
    (hall : ∀ x ∈ l, x < l.length) : l = List.range l.length := by
  have hnd : l.Nodup := hs.nodup
  have hnd2 : (List.range l.length).Nodup := List.nodup_range _
  have hsub : l.toFinset ⊆ (List.range l.length).toFinset := by
    intro x hx
    rw [List.mem_toFinset] at hx
    rw [List.mem_toFinset, List.mem_range]
    exact hall x hx
  have hcard : (List.range l.length).toFinset.card ≤ l.toFinset.card := by
    rw [List.toFinset_card_of_nodup hnd, List.toFinset_card_of_nodup hnd2]
    simp
  have hfin : l.toFinset = (List.range l.length).toFinset :=
    Finset.eq_of_subset_of_card_le hsub hcard
  have hperm : l.Perm (List.range l.length) :=
    List.perm_of_nodup_nodup_toFinset_eq hnd hnd2 hfin
  exact List.eq_of_perm_of_sorted hperm
    (hs.imp (fun h => Nat.le_of_lt h)) (List.sorted_le_range _)

theorem mem_sortedInsert (x y : Nat) (l : List Nat) :
    x ∈ sortedInsert y l ↔ x = y ∨ x ∈ l := by
  induction l with
  | nil => simp [sortedInsert]
  | cons z zs ih =>
    unfold sortedInsert
    by_cases h : y ≤ z
    · simp [h]
    · simp only [if_neg h, List.mem_cons, ih]
      tauto

theorem mem_sortNat (x : Nat) (l : List Nat) : x ∈ sortNat l ↔ x ∈ l := by
  induction l with
  | nil => simp [sortNat]
  | cons z zs ih =>
    show x ∈ sortedInsert z (sortNat zs) ↔ _
    rw [mem_sortedInsert, ih]
    simp

theorem lab7_infer_dataset_default (f : String → String) (b : Nat) (hb : 1 ≤ b)
    (t : CleanTable) (ht : t.defaultIndex) :
    lab7_infer_dataset f b t =
      (List.range t.length).map
        (fun i => ⟨i, t.targets.get? i, (t.sources.map f).get? i⟩) := by
  unfold lab7_infer_dataset mkPredTable
  rw [lab7_predictions_eq f b hb t]
  have hla : Series.labels t.targetSeries = List.range t.length := by
    rw [targetSeries_labels]
    exact ht
  have hlb : Series.labels (defaultSeries (t.sources.map f)) = List.range t.length := by
    rw [defaultSeries_labels]
    congr 1
    rw [List.length_map]
    exact sources_length t
  rw [hla, hlb]
  unfold indexUnion
  rw [if_pos rfl]
  apply List.map_congr_left
  intro i hi
  rw [List.mem_range] at hi
  congr 1
  · rw [targetSeries_eq_zip]
    unfold CleanTable.defaultIndex at ht
    rw [ht]
    have hlen : t.length = t.targets.length := (targets_length t).symm
    rw [hlen] at hi ⊢
    rw [List.range_eq_range']
    simpa using get_zip_range' t.targets 0 i
  · exact defaultSeries_get (t.sources.map f) i

/-- Claim C1 (amended): for every clean table with the default contiguous
index `0..N-1` and any batch size at least 1, the lab_7 `infer_dataset()`
returns a prediction table of exactly `N` rows whose target column equals
the clean table's target column elementwise; the lab_8 `infer_dataset()`
is an unimplemented stub and returns null instead of a table. -/
theorem claim_C1_roundtrip (f : String → String) (b : Nat) (t : CleanTable)
    (hb : 1 ≤ b) (ht : t.defaultIndex) :
    (lab7_infer_dataset f b t).length = t.length ∧
    (lab7_infer_dataset f b t).map PredRow.target = t.targets.map some ∧
    lab8_infer_dataset = none := by
  rw [lab7_infer_dataset_default f b hb t ht]
  refine ⟨by simp, ?_, rfl⟩
  rw [List.map_map]
  have : (List.range t.length).map
      (PredRow.target ∘ fun i => (⟨i, t.targets.get? i, (t.sources.map f).get? i⟩ : PredRow))
      = (List.range t.targets.length).map (fun i => t.targets.get? i) := by
    rw [targets_length]
    rfl
  rw [this, map_get?_range]

/-- Claim C1, counterexample to the claim as frozen: the lab_8
`infer_dataset()` returns null, not a table of `N` rows; and on a 1-row
clean table whose index label is `5` (not the default `0`), the lab_7
`infer_dataset()` returns a 2-row table, because the target column keeps
index label `5` while the prediction column is indexed `0`. -/
theorem claim_C1_counterexample :
    lab8_infer_dataset = none ∧
    (lab7_infer_dataset id 1 [⟨5, "s", "t"⟩]).length = 2 := by
  constructor
  · rfl
  · rfl

/-- Claim C1, witness: the amended round-trip at a concrete 3-row
default-index table with batch size 2. -/
theorem claim_C1_witness :
    (lab7_infer_dataset (fun s => s ++ "!") 2 [⟨0, "a", "x"⟩, ⟨1, "b", "y"⟩, ⟨2, "c", "z"⟩]).length = 3 ∧
    (lab7_infer_dataset (fun s => s ++ "!") 2 [⟨0, "a", "x"⟩, ⟨1, "b", "y"⟩, ⟨2, "c", "z"⟩]).map PredRow.target
      = [some "x", some "y", some "z"] ∧
    lab8_infer_dataset = none :=
  claim_C1_roundtrip (fun s => s ++ "!") 2 [⟨0, "a", "x"⟩, ⟨1, "b", "y"⟩, ⟨2, "c", "z"⟩]
    (by decide) (by decide)

/-- Claim C2: for any batch size at least 1, the lab_7 dataset-level
prediction list (per-batch `_infer_batch` outputs concatenated in batch
order) equals a single-pass `_infer_batch` run over the whole collated
dataset; the `DataLoader` batches are the order-preserving chunks of the
item sequence, every chunk has size at most the batch size, and all
chunks except possibly the last have size exactly the batch size. -/
theorem claim_C2_batch_law (f : String → String) (b : Nat) (t : CleanTable)
    (hb : 1 ≤ b) :
    lab7_infer_dataset_predictions f b t
        = lab7_infer_batch f (collate1 (TaskDataset_items t)) ∧
    (chunkList b (TaskDataset_items t)).flatten = TaskDataset_items t ∧
    (∀ c ∈ chunkList b (TaskDataset_items t), c.length ≤ b) ∧
    (∀ c ∈ (chunkList b (TaskDataset_items t)).dropLast, c.length = b) := by
  refine ⟨?_, chunkList_flatten b hb _, fun c hc => chunkList_length_le b _ c hc,
    fun c hc => chunkList_dropLast_length b hb _ c hc⟩
  rw [lab7_predictions_eq f b hb t]
  show t.sources.map f = ((collate1 (TaskDataset_items t)).flatten).map f
  congr 1
  unfold collate1
  rw [List.flatten_cons, List.flatten_nil, List.append_nil]
  have hitems : TaskDataset_items t = t.sources.map (fun s => [s]) := by
    unfold TaskDataset_items CleanTable.sources
    rw [List.map_map]
    rfl
  rw [hitems, flatten_map_singleton]

/-- Claim C2, witness: the batch segmentation law at a concrete 3-row
dataset with batch size 2 (3 is not divisible by 2). -/
theorem claim_C2_witness :
    lab7_infer_dataset_predictions (fun s => s ++ "!") 2 [⟨0, "a", "x"⟩, ⟨1, "b", "y"⟩, ⟨2, "c", "z"⟩]
        = lab7_infer_batch (fun s => s ++ "!")
            (collate1 (TaskDataset_items [⟨0, "a", "x"⟩, ⟨1, "b", "y"⟩, ⟨2, "c", "z"⟩])) :=
  (claim_C2_batch_law (fun s => s ++ "!") 2 [⟨0, "a", "x"⟩, ⟨1, "b", "y"⟩, ⟨2, "c", "z"⟩]
    (by decide)).1

/-- Claim C3: the lab_7 prediction table pairs targets with predictions
by pandas index label.  (i) On a clean table with the default index
`0..N-1`, row `i` of the result carries label `i`, the `i`-th target and
the `i`-th prediction.  (ii) Any result row whose label lies outside
`0..N-1` has a null prediction, and (iii) whenever the clean table's
index is strictly increasing but not the default one, such a row exists:
a genuine target paired with a null prediction. -/
theorem claim_C3_label_alignment (f : String → String) (b : Nat) (t : CleanTable)
    (hb : 1 ≤ b) :
    (t.defaultIndex → ∀ i, i < t.length →
      (lab7_infer_dataset f b t).get? i
        = some ⟨i, t.targets.get? i, (t.sources.map f).get? i⟩) ∧
    (∀ r ∈ lab7_infer_dataset f b t, t.length ≤ r.label → r.prediction = none) ∧
    (t.labels.Sorted (· < ·) → ¬ t.defaultIndex →
      ∃ r ∈ lab7_infer_dataset f b t,
        t.length ≤ r.label ∧ r.target.isSome ∧ r.prediction = none) := by
  refine ⟨?_, ?_, ?_⟩
  · intro ht i hi
    rw [lab7_infer_dataset_default f b hb t ht]
    rw [List.get?_map, List.get?_range hi]
    rfl
  · intro r hr hlab
    unfold lab7_infer_dataset mkPredTable at hr
    rcases List.mem_map.mp hr with ⟨l, _, hl2⟩
    subst hl2
    show Series.get (defaultSeries (lab7_infer_dataset_predictions f b t)) l = none
    apply defaultSeries_get_none
    rw [lab7_predictions_eq f b hb t, List.length_map, sources_length]
    exact hlab
  · intro hsorted hnd
    have hex : ∃ l ∈ t.labels, t.length ≤ l := by
      by_contra hall
      push_neg at hall
      apply hnd
      unfold CleanTable.defaultIndex
      have := sorted_lt_eq_range t.labels hsorted
        (fun x hx => by rw [labels_length]; exact hall x hx)
      rw [this, labels_length]
    rcases hex with ⟨l, hlmem, hlge⟩
    refine ⟨⟨l, Series.get t.targetSeries l,
      Series.get (defaultSeries (lab7_infer_dataset_predictions f b t)) l⟩, ?_, ?_, ?_, ?_⟩
    · unfold lab7_infer_dataset mkPredTable
      apply List.mem_map.mpr
      refine ⟨l, ?_, rfl⟩
      have : l ∈ Series.labels t.targetSeries := by
        rw [targetSeries_labels]
        exact hlmem
      unfold indexUnion
      by_cases heq : Series.labels t.targetSeries
          = Series.labels (defaultSeries (lab7_infer_dataset_predictions f b t))
      · rw [if_pos heq]
        exact this
      · rw [if_neg heq]
        rw [List.mem_dedup, mem_sortNat, List.mem_append]
        exact Or.inl this
    · exact hlge
    · apply series_get_isSome_of_mem
      rw [targetSeries_labels]
      exact hlmem
    · apply defaultSeries_get_none
      rw [lab7_predictions_eq f b hb t, List.length_map, sources_length]
      exact hlge

/-- Claim C3, witness: part (i) at a 1-row default-index table, and part
(iii) at the 1-row table whose only index label is 5. -/
theorem claim_C3_witness :
    (lab7_infer_dataset id 1 [⟨0, "a", "x"⟩]).get? 0 = some ⟨0, some "x", some "a"⟩ ∧
    (∃ r ∈ lab7_infer_dataset id 1 [⟨5, "s", "t"⟩],
      1 ≤ r.label ∧ r.target.isSome ∧ r.prediction = none) := by
  constructor
  · exact (claim_C3_label_alignment id 1 [⟨0, "a", "x"⟩] (by decide)).1 (by decide) 0
      (by decide)
  · exact (claim_C3_label_alignment id 1 [⟨5, "s", "t"⟩] (by decide)).2.2
      (by decide) (by decide)

/-- Claim C4, evidence of the code bug at the absent-model state: lab_7
`infer_sample` does return `None` without raising, but `analyze_model` in
both labs dereferences `self._model.config` before its absent-model guard
and so raises `AttributeError`, and lab_8 `infer_sample` calls the absent
model and so raises `TypeError` — instead of the null/empty results the
claim describes. -/
theorem claim_C4_absent_model :
    (∀ sample, lab7_infer_sample none sample = Except.ok none) ∧
    lab7_analyze_model none = Except.error PyErr.attributeError ∧
    lab8_analyze_model none = Except.error PyErr.attributeError ∧
    (∀ sample, lab8_infer_sample none sample = Except.error PyErr.typeError) :=
  ⟨fun _ => rfl, rfl, rfl, fun _ => rfl⟩

/-- Claim C9, evidence of the code bug: `obtain()` stores the fetched
split's `to_pandas` conversion with no type check of its own, so on a
non-tabular fetch it raises `AttributeError` (from the missing
`to_pandas` attribute), never the `TypeError` its docstring and the claim
promise. -/
theorem claim_C9_obtain :
    (∀ (α : Type) (df : α), RawDataImporter_obtain (Fetched.tabular df) = Except.ok df) ∧
    (∀ (α : Type), RawDataImporter_obtain (Fetched.nonTabular : Fetched α)
        = Except.error PyErr.attributeError) ∧
    PyErr.attributeError ≠ PyErr.typeError :=
  ⟨fun _ _ => rfl, fun _ => rfl, by decide⟩

/-- Claim C7 (amended): on a raw table with zero rows, `analyze()` does
not return a dict at all — the built-in `min` over the empty sequence of
sample lengths raises `ValueError`; the min/max computations are not
guarded. -/
theorem claim_C7_empty_analyze (p cols : Nat) :
    RawDataPreprocessor_analyze p [] cols = Except.error PyErr.valueError := rfl

/-- Claim C7, counterexample to the claim as frozen: `analyze()` on the
empty raw table fails with `ValueError` instead of returning
well-defined zeros/empties. -/
theorem claim_C7_counterexample :
    RawDataPreprocessor_analyze 0 [] 2 = Except.error PyErr.valueError := rfl

theorem resetIndex_length (k : Nat) (t : CleanTable) :
    (resetIndex k t).length = t.length := by
  induction t generalizing k with
  | nil => rfl
  | cons r rs ih =>
    show (resetIndex (k + 1) rs).length + 1 = rs.length + 1
    rw [ih]

theorem resetIndex_labels (k : Nat) (t : CleanTable) :
    CleanTable.labels (resetIndex k t) = List.range' k t.length := by
  induction t generalizing k with
  | nil => rfl
  | cons r rs ih =>
    show k :: CleanTable.labels (resetIndex (k + 1) rs) = List.range' k (rs.length + 1)
    rw [List.range'_succ, ih]

theorem mem_resetIndex (k : Nat) (t : CleanTable) (r : CleanRow)
    (hr : r ∈ resetIndex k t) :
    ∃ r' ∈ t, r.source = r'.source ∧ r.target = r'.target := by
  induction t generalizing k with
  | nil => simp [resetIndex] at hr
  | cons x xs ih =>
    rcases List.mem_cons.mp hr with h | h
    · exact ⟨x, List.mem_cons_self x xs, by rw [h], by rw [h]⟩
    · rcases ih (k + 1) h with ⟨r', hr', hs, ht⟩
      exact ⟨r', List.mem_cons_of_mem x hr', hs, ht⟩

theorem lab8_transform_labels (raw : Lab8RawTable) :
    CleanTable.labels (lab8_transform raw) = List.range (lab8_transform raw).length := by
  unfold lab8_transform
  rw [resetIndex_labels, resetIndex_length, List.range_eq_range']

theorem lab8_transform_targets01 (raw : Lab8RawTable) (r : CleanRow)
    (hr : r ∈ lab8_transform raw) : r.target = "0" ∨ r.target = "1" := by
  unfold lab8_transform at hr
  rcases mem_resetIndex 0 _ r hr with ⟨r', hr', _, ht⟩
  rw [ht]
  have := List.mem_filter.mp hr'
  rcases this with ⟨_, hpred⟩
  simp only [Bool.or_eq_true, beq_iff_eq] at hpred
  exact hpred

/-- Claim C5: the concrete classification scenario — dedup, payload
mapping, filtering of unmapped labels and contiguous reindexing produce
exactly two rows with targets `0`, `1` at indices `0`, `1`; moreover for
every raw table the transformed index is the contiguous range `0..N-1`
and every surviving target is in the label vocabulary. -/
theorem claim_C5_transform_scenario :
    lab8_transform [⟨0, "good job", notToxicPayload⟩, ⟨1, "you are trash", toxicPayload⟩,
        ⟨2, "n/a", "\x7b\"other\":true\x7d"⟩]
      = [⟨0, "good job", "0"⟩, ⟨1, "you are trash", "1"⟩] ∧
    (∀ raw, CleanTable.labels (lab8_transform raw)
        = List.range (lab8_transform raw).length) ∧
    (∀ raw, ∀ r ∈ lab8_transform raw, r.target = "0" ∨ r.target = "1") :=
  ⟨by decide, lab8_transform_labels, lab8_transform_targets01⟩

/-- Claim C5, witness: the general conjuncts of the scenario theorem
discharged at the concrete raw table and its first surviving row. -/
theorem claim_C5_witness :
    CleanTable.labels (lab8_transform [⟨0, "good job", notToxicPayload⟩,
        ⟨1, "you are trash", toxicPayload⟩, ⟨2, "n/a", "\x7b\"other\":true\x7d"⟩])
      = List.range 2 ∧
    ((⟨0, "good job", "0"⟩ : CleanRow).target = "0" ∨
      (⟨0, "good job", "0"⟩ : CleanRow).target = "1") := by
  constructor
  · exact claim_C5_transform_scenario.2.1 [⟨0, "good job", notToxicPayload⟩,
      ⟨1, "you are trash", toxicPayload⟩, ⟨2, "n/a", "\x7b\"other\":true\x7d"⟩]
  · exact claim_C5_transform_scenario.2.2 [⟨0, "good job", notToxicPayload⟩,
      ⟨1, "you are trash", toxicPayload⟩, ⟨2, "n/a", "\x7b\"other\":true\x7d"⟩]
      ⟨0, "good job", "0"⟩ (by decide)

theorem foldl_min_le_init (x : Nat) (xs : List Nat) : xs.foldl Nat.min x ≤ x := by
  induction xs generalizing x with
  | nil => exact Nat.le_refl x
  | cons y ys ih =>
    calc (y :: ys).foldl Nat.min x = ys.foldl Nat.min (Nat.min x y) := rfl
    _ ≤ Nat.min x y := ih _
    _ ≤ x := Nat.min_le_left x y

theorem init_le_foldl_max (x : Nat) (xs : List Nat) : x ≤ xs.foldl Nat.max x := by
  induction xs generalizing x with
  | nil => exact Nat.le_refl x
  | cons y ys ih =>
    calc x ≤ Nat.max x y := Nat.le_max_left x y
    _ ≤ ys.foldl Nat.max (Nat.max x y) := ih _
    _ = (y :: ys).foldl Nat.max x := rfl

theorem foldl_min_le_foldl_max (x : Nat) (xs : List Nat) :
    xs.foldl Nat.min x ≤ xs.foldl Nat.max x :=
  Nat.le_trans (foldl_min_le_init x xs) (init_le_foldl_max x xs)

/-- Claim C6 (amended): for every raw table with at least one row
surviving `dropna`, `analyze()` returns a dict whose empty-row count is
`rows - rows_after_dropna`, whose minimum sample length is at most its
maximum sample length, and whose duplicate count is nonnegative.  (On a
non-empty table all of whose rows contain a null, `analyze()` instead
raises `ValueError`.) -/
theorem claim_C6_analyze_props (p cols : Nat) (raw : List RawRow)
    (h : dropna raw ≠ []) :
    ∃ a, RawDataPreprocessor_analyze p raw cols = Except.ok a ∧
      a.dataset_empty_rows = raw.length - (dropna raw).length ∧
      a.dataset_sample_min_len ≤ a.dataset_sample_max_len ∧
      0 ≤ a.dataset_duplicates := by
  match hd : dropna raw with
  | [] => exact absurd hd h
  | x :: xs =>
    refine ⟨⟨raw.length, cols, duplicatedCount raw, raw.length - (x :: xs).length,
      (xs.map (primaryLen p)).foldl Nat.min (primaryLen p x),
      (xs.map (primaryLen p)).foldl Nat.max (primaryLen p x)⟩, ?_, rfl, ?_, Nat.zero_le _⟩
    · unfold RawDataPreprocessor_analyze
      rw [hd]
      rfl
    · exact foldl_min_le_foldl_max _ _

/-- Claim C6, witness: the amended property at a concrete two-row raw
table with one all-null row. -/
theorem claim_C6_witness :
    ∃ a, RawDataPreprocessor_analyze 0 [[some "ab"], [Option.none]] 1 = Except.ok a ∧
      a.dataset_empty_rows = 2 - (dropna [[some "ab"], [Option.none]]).length ∧
      a.dataset_sample_min_len ≤ a.dataset_sample_max_len ∧
      0 ≤ a.dataset_duplicates :=
  claim_C6_analyze_props 0 1 [[some "ab"], [Option.none]] (by decide)

/-- Claim C6, counterexample to the claim as frozen: a non-empty raw
table whose single row contains a null makes `analyze()` raise
`ValueError` (built-in `min` over an empty sequence), so no dict with
the claimed properties is returned. -/
theorem claim_C6_counterexample :
    RawDataPreprocessor_analyze 0 [[Option.none]] 1 = Except.error PyErr.valueError := rfl

theorem dedupCleanGo_eq_self (seen : CleanTable) (t : CleanTable)
    (hseen : ∀ r ∈ t, ∀ r0 ∈ seen, ¬(r0.source = r.source ∧ r0.target = r.target))
    (hp : t.Pairwise (fun r1 r2 => ¬(r1.source = r2.source ∧ r1.target = r2.target))) :
    dedupCleanGo seen t = t := by
  induction t generalizing seen with
  | nil => rfl
  | cons r rs ih =>
    have hany : (seen.any (fun r0 => r0.source == r.source && r0.target == r.target)) = false := by
      rw [List.any_eq_false]
      intro r0 hr0
      have := hseen r (List.mem_cons_self r rs) r0 hr0
      simp only [Bool.and_eq_true, beq_iff_eq]
      exact fun hc => this hc
    rw [dedupCleanGo, hany]
    show r :: dedupCleanGo (seen ++ [r]) rs = r :: rs
    congr 1
    apply ih
    · intro r' hr' r0 hr0
      rcases List.mem_append.mp hr0 with h0 | h0
      · exact hseen r' (List.mem_cons_of_mem r hr') r0 h0
      · have : r0 = r := by simpa using h0
        subst this
        exact (List.pairwise_cons.mp hp).1 r' hr'
    · exact (List.pairwise_cons.mp hp).2

theorem replaceTargets_eq_self (t : CleanTable)
    (h : ∀ r ∈ t, r.target = "0" ∨ r.target = "1") : replaceTargets t = t := by
  unfold replaceTargets
  have : ∀ r ∈ t, (⟨r.label, r.source, replaceLabel r.target⟩ : CleanRow) = r := by
    intro r hr
    have hrep : replaceLabel r.target = r.target := by
      rcases h r hr with h0 | h0 <;>
        rw [h0] <;> rfl
    rw [hrep]
  calc t.map (fun r => (⟨r.label, r.source, replaceLabel r.target⟩ : CleanRow))
      = t.map id := List.map_congr_left this
  _ = t := List.map_id t

theorem filterTargets_eq_self (t : CleanTable)
    (h : ∀ r ∈ t, r.target = "0" ∨ r.target = "1") : filterTargets t = t := by
  unfold filterTargets
  apply List.filter_eq_self.mpr
  intro r hr
  simp only [Bool.or_eq_true, beq_iff_eq]
  exact h r hr

theorem resetIndex_eq_self (k : Nat) (t : CleanTable)
    (h : CleanTable.labels t = List.range' k t.length) : resetIndex k t = t := by
  induction t generalizing k with
  | nil => rfl
  | cons r rs ih =>
    have hlab : r.label :: CleanTable.labels rs = k :: List.range' (k + 1) rs.length := by
      rw [← List.range'_succ]
      exact h
    have h1 : r.label = k := (List.cons.injEq _ _ _ _).mp hlab |>.1
    have h2 : CleanTable.labels rs = List.range' (k + 1) rs.length :=
      (List.cons.injEq _ _ _ _).mp hlab |>.2
    show (⟨k, r.source, r.target⟩ : CleanRow) :: resetIndex (k + 1) rs = r :: rs
    rw [ih (k + 1) h2, ← h1]

/-- Claim C8 (amended): the dedup / label-map / filter / reindex sequence
of lab_8 `transform` is idempotent on its own output, provided that
output contains no duplicate `(source, target)` rows.  (The proviso is
forced: `transform` deduplicates before mapping label payloads, so two
distinct raw rows can collapse into duplicate clean rows.) -/
theorem claim_C8_idempotent (raw : Lab8RawTable)
    (h : (lab8_transform raw).Pairwise
      (fun r1 r2 => ¬(r1.source = r2.source ∧ r1.target = r2.target))) :
    lab8_cleanStep (lab8_transform raw) = lab8_transform raw := by
  have h01 : ∀ r ∈ lab8_transform raw, r.target = "0" ∨ r.target = "1" :=
    lab8_transform_targets01 raw
  unfold lab8_cleanStep
  rw [show dropDuplicatesClean (lab8_transform raw) = lab8_transform raw from
    dedupCleanGo_eq_self [] _ (by intro r _ r0 hr0; simp at hr0) h]
  rw [replaceTargets_eq_self _ h01, filterTargets_eq_self _ h01]
  apply resetIndex_eq_self
  rw [lab8_transform_labels, List.range_eq_range']

/-- Claim C8, counterexample to the claim as frozen: on the raw table
with rows `("a", not-toxic payload)` and `("a", "0")`, `transform`
produces two identical clean rows (dedup ran before label mapping), and
re-running the dedup / label-map / filter / reindex sequence on that
output removes one of them — the sequence is not idempotent on it. -/
theorem claim_C8_counterexample :
    lab8_cleanStep (lab8_transform [⟨0, "a", notToxicPayload⟩, ⟨1, "a", "0"⟩])
      ≠ lab8_transform [⟨0, "a", notToxicPayload⟩, ⟨1, "a", "0"⟩] := by decide

/-- Claim C8, witness: idempotence at a concrete raw table whose
transform output has two distinct rows. -/
theorem claim_C8_witness :
    lab8_cleanStep (lab8_transform [⟨0, "a", notToxicPayload⟩, ⟨1, "b", toxicPayload⟩])
      = lab8_transform [⟨0, "a", notToxicPayload⟩, ⟨1, "b", toxicPayload⟩] :=
  claim_C8_idempotent [⟨0, "a", notToxicPayload⟩, ⟨1, "b", toxicPayload⟩] (by decide)

/-- Claim C10: on a task dataset of length `N`, indexed access at any
index outside the valid `iloc` range `[-N, N)` fails with an index
error; every valid nonnegative index `i` returns the 1-tuple of the
source field of row `i`, and every valid negative index `i` returns the
1-tuple of the source field of row `N + i` (Python semantics). -/
theorem claim_C10_getitem (t : CleanTable) (i : Int) :
    ((i < -(t.length : Int) ∨ (t.length : Int) ≤ i) →
      TaskDataset_getitem t i = Except.error PyErr.indexError) ∧
    (0 ≤ i → i < (t.length : Int) →
      ∃ r, t.get? i.toNat = some r ∧ TaskDataset_getitem t i = Except.ok [r.source]) ∧
    (i < 0 → -(t.length : Int) ≤ i →
      ∃ r, t.get? (i + t.length).toNat = some r ∧
        TaskDataset_getitem t i = Except.ok [r.source]) := by
  refine ⟨?_, ?_, ?_⟩
  · intro h
    unfold TaskDataset_getitem
    rcases h with h | h
    · have hneg : i < 0 := by omega
      rw [if_pos hneg, if_neg (by omega : ¬ (0 : Int) ≤ i + t.length)]
    · have hnn : ¬ i < 0 := by omega
      rw [if_neg hnn, if_pos (by omega : (0 : Int) ≤ i)]
      have : t.get? i.toNat = none := by
        rw [List.get?_eq_none]
        omega
      rw [this]
  · intro h0 h1
    have hlt : i.toNat < t.length := by omega
    cases hg : t.get? i.toNat with
    | none =>
      rw [List.get?_eq_none] at hg
      omega
    | some r =>
      refine ⟨r, rfl, ?_⟩
      unfold TaskDataset_getitem
      rw [if_neg (by omega : ¬ i < 0), if_pos h0, hg]
  · intro h0 h1
    have hlt : (i + t.length).toNat < t.length := by omega
    cases hg : t.get? (i + t.length).toNat with
    | none =>
      rw [List.get?_eq_none] at hg
      omega
    | some r =>
      refine ⟨r, rfl, ?_⟩
      unfold TaskDataset_getitem
      rw [if_pos h0, if_pos (by omega : (0 : Int) ≤ i + t.length), hg]

/-- Claim C10, witness: out-of-range access at 5 and at -3 fail with an
index error, and the valid indices 1 and -1 both return the 1-tuple of
the second row's source, on a concrete 2-row dataset. -/
theorem claim_C10_witness :
    TaskDataset_getitem [⟨0, "a", "x"⟩, ⟨1, "b", "y"⟩] 5 = Except.error PyErr.indexError ∧
    TaskDataset_getitem [⟨0, "a", "x"⟩, ⟨1, "b", "y"⟩] (-3) = Except.error PyErr.indexError ∧
    TaskDataset_getitem [⟨0, "a", "x"⟩, ⟨1, "b", "y"⟩] 1 = Except.ok ["b"] ∧
    TaskDataset_getitem [⟨0, "a", "x"⟩, ⟨1, "b", "y"⟩] (-1) = Except.ok ["b"] := by
  refine ⟨?_, ?_, ?_, ?_⟩
  · exact (claim_C10_getitem [⟨0, "a", "x"⟩, ⟨1, "b", "y"⟩] 5).1 (by decide)
  · exact (claim_C10_getitem [⟨0, "a", "x"⟩, ⟨1, "b", "y"⟩] (-3)).1 (by decide)
  · obtain ⟨r, hr, hres⟩ :=
      (claim_C10_getitem [⟨0, "a", "x"⟩, ⟨1, "b", "y"⟩] 1).2.1 (by decide) (by decide)
    have : r = ⟨1, "b", "y"⟩ := by
      have h2 : some r = some (⟨1, "b", "y"⟩ : CleanRow) := by rw [← hr]; rfl
      exact (Option.some.injEq _ _).mp h2.symm |>.symm
    rw [hres, this]
  · obtain ⟨r, hr, hres⟩ :=
      (claim_C10_getitem [⟨0, "a", "x"⟩, ⟨1, "b", "y"⟩] (-1)).2.2 (by decide) (by decide)
    have : r = ⟨1, "b", "y"⟩ := by
      have h2 : some r = some (⟨1, "b", "y"⟩ : CleanRow) := by rw [← hr]; rfl
      exact (Option.some.injEq _ _).mp h2.symm |>.symm
    rw [hres, this]

end HelloLLM
